import Mathlib

/-!
Verification of the `pi` library (single header `pi.h`): the canonical-text
GUID parser `string_to_guid`, the capability registry lookup
`UnknownImpl::QueryInterface`, and the hybrid reference-counting state machine
of `UnknownImpl` (`AddRef` / `Release` / `shared_ptr` / shared-handle release).

Modelling conventions:
- C strings are `List Int` of the bytes before the terminator, each byte read
  as a signed `char` (values in `[-128, 127]`); reading at or past the end of
  the list yields `0`, the terminator.  `strAt` performs that read.
- The 103-entry `hex2bin` table is a `List Nat`; `hex2binGet` returns `none`
  when the index is outside the table (an out-of-bounds read in C).
- `string_to_guid` returns `PRes.ub` when the original code would perform an
  out-of-bounds table read, `PRes.err` for `return false` / `nullopt`, and
  `PRes.ok` with the decoded GUID on success.
- The hybrid object is an `ObjState` record of the fields `refCountCom`,
  `refCountSharedPtr`, `refStarted` plus a `destroyed` flag modelling
  `delete this`.  Each public operation runs one critical section of the
  object lock, so an interleaving of threads is a sequence of operations
  (`List Op`); `run` executes such a sequence, failing (`none`) when an
  operation violates its `assert` precondition or acts on a destroyed object.
-/

namespace pi

-- --------------------------------------------------------------------------
-- GUID and the canonical-text parser (pi.h, string_to_guid)
-- --------------------------------------------------------------------------

/-- Binary GUID: `unsigned int Data1; unsigned short Data2, Data3;
    unsigned char Data4[8]` from `pi.h`. -/
structure GUID where
  Data1 : Nat
  Data2 : Nat
  Data3 : Nat
  Data4 : List Nat
deriving DecidableEq, Repr

/-- The `hex2bin` ascii table of `pi.h`: 103 entries, indices `0x00`
    through `0x66` (the character `f`). -/
def hex2bin : List Nat :=
  [99, 99, 99, 99, 99, 99, 99, 99, 99, 99, 99, 99, 99, 99, 99, 99,
   99, 99, 99, 99, 99, 99, 99, 99, 99, 99, 99, 99, 99, 99, 99, 99,
   99, 99, 99, 99, 99, 99, 99, 99, 99, 99, 99, 99, 99, 99, 99, 99,
    0,  1,  2,  3,  4,  5,  6,  7,  8,  9, 99, 99, 99, 99, 99, 99,
   99, 10, 11, 12, 13, 14, 15, 99, 99, 99, 99, 99, 99, 99, 99, 99,
   99, 99, 99, 99, 99, 99, 99, 99, 99, 99, 99, 99, 99, 99, 99, 99,
   99, 10, 11, 12, 13, 14, 15]

/-- Reading `hex2bin[c]` where `c` is a (signed) `char` used as index:
    defined only for indices inside the table. -/
def hex2binGet (c : Int) : Option Nat :=
  if 0 ≤ c ∧ c < 103 then some (hex2bin.getD c.toNat 99) else none

/-- Total version of the table read, used after the scan loop has already
    validated the character (so the `none` case is unreachable there). -/
def hex2binD (c : Int) : Nat := (hex2binGet c).getD 99

/-- Read byte `i` of a C string modelled as the list of its bytes before the
    terminator; at or past the end the read yields the terminator `0`. -/
def strAt (s : List Int) (i : Nat) : Int := s.getD i 0

/-- Result of `string_to_guid`: `ub` marks an out-of-bounds `hex2bin` read
    (undefined behavior in the C source), `err` is `return false` /
    `std::nullopt`, `ok` carries the decoded GUID. -/
inductive PRes where
  | ub : PRes
  | err : PRes
  | ok : GUID → PRes
deriving DecidableEq, Repr

/-- One iteration of the scan loop of `string_to_guid` at index `i`:
    `some true` continues, `some false` is `return false`, `none` is an
    out-of-bounds table read. -/
def checkAt (s : List Int) (i : Nat) : Option Bool :=
  if i = 8 ∨ i = 13 ∨ i = 18 ∨ i = 23 then
    some (decide (strAt s i = 45))
  else if i = 36 then
    some (decide (strAt s i = 0))
  else if strAt s i > 102 then
    some false
  else
    match hex2binGet (strAt s i) with
    | none => none
    | some v => some (decide (v ≤ 15))

/-- The scan loop `for (i = 0; i < 37; ++i)` of `string_to_guid`, starting at
    index `i` with `fuel` iterations left. -/
def checkSeq (s : List Int) : Nat → Nat → Option Bool
  | _, 0 => some true
  | i, fuel + 1 =>
    match checkAt s i with
    | none => none
    | some false => some false
    | some true => checkSeq s (i + 1) fuel

/-- The parser `string_to_guid` of `pi.h`: scan loop, then big-endian
    assembly of the four GUID fields from the 32 validated hex digits. -/
def string_to_guid (s : List Int) : PRes :=
  match checkSeq s 0 37 with
  | none => PRes.ub
  | some false => PRes.err
  | some true =>
    PRes.ok
      { Data1 := hex2binD (strAt s 0) <<< 28 ||| hex2binD (strAt s 1) <<< 24 |||
                 hex2binD (strAt s 2) <<< 20 ||| hex2binD (strAt s 3) <<< 16 |||
                 hex2binD (strAt s 4) <<< 12 ||| hex2binD (strAt s 5) <<< 8 |||
                 hex2binD (strAt s 6) <<< 4 ||| hex2binD (strAt s 7)
        Data2 := hex2binD (strAt s 9) <<< 12 ||| hex2binD (strAt s 10) <<< 8 |||
                 hex2binD (strAt s 11) <<< 4 ||| hex2binD (strAt s 12)
        Data3 := hex2binD (strAt s 14) <<< 12 ||| hex2binD (strAt s 15) <<< 8 |||
                 hex2binD (strAt s 16) <<< 4 ||| hex2binD (strAt s 17)
        Data4 := [hex2binD (strAt s 19) <<< 4 ||| hex2binD (strAt s 20),
                  hex2binD (strAt s 21) <<< 4 ||| hex2binD (strAt s 22),
                  hex2binD (strAt s 24) <<< 4 ||| hex2binD (strAt s 25),
                  hex2binD (strAt s 26) <<< 4 ||| hex2binD (strAt s 27),
                  hex2binD (strAt s 28) <<< 4 ||| hex2binD (strAt s 29),
                  hex2binD (strAt s 30) <<< 4 ||| hex2binD (strAt s 31),
                  hex2binD (strAt s 32) <<< 4 ||| hex2binD (strAt s 33),
                  hex2binD (strAt s 34) <<< 4 ||| hex2binD (strAt s 35)] }

-- --------------------------------------------------------------------------
-- The specification's view of canonical text (spec, sections 4.1 and 8)
-- --------------------------------------------------------------------------

/-- Positions of the four hyphens in canonical text. -/
def dashPos (i : Nat) : Prop := i = 8 ∨ i = 13 ∨ i = 18 ∨ i = 23

instance (i : Nat) : Decidable (dashPos i) := by
  unfold dashPos; infer_instance

/-- A byte that is a case-insensitive hex digit (`0-9`, `A-F`, `a-f`). -/
def isHexDigit (c : Int) : Prop :=
  (48 ≤ c ∧ c ≤ 57) ∨ (65 ≤ c ∧ c ≤ 70) ∨ (97 ≤ c ∧ c ≤ 102)

instance (c : Int) : Decidable (isHexDigit c) := by
  unfold isHexDigit; infer_instance

/-- Syntactically valid canonical text: exactly 36 characters, hyphens at
    positions 8, 13, 18, 23, hex digits everywhere else. -/
def validCanonical (s : List Int) : Prop :=
  s.length = 36 ∧
  ∀ i, i < 36 →
    (dashPos i → strAt s i = 45) ∧ (¬dashPos i → isHexDigit (strAt s i))

instance (s : List Int) : Decidable (validCanonical s) := by
  unfold validCanonical; infer_instance

/-- Numeric value of a hex digit, written from the specification. -/
def hexVal (c : Int) : Nat :=
  if 48 ≤ c ∧ c ≤ 57 then (c - 48).toNat
  else if 65 ≤ c ∧ c ≤ 70 then (c - 55).toNat
  else if 97 ≤ c ∧ c ≤ 102 then (c - 87).toNat
  else 0

/-- Decoder written from the specification's words (section 4.1): the 32 hex
    digits decode big-endian, first 8 into the 32-bit field, then 4 and 4
    into the 16-bit fields, the last 12 as 6 byte pairs.  Compared against
    `string_to_guid`. -/
def specDecode (s : List Int) : GUID :=
  { Data1 := hexVal (strAt s 0) * 16 ^ 7 + hexVal (strAt s 1) * 16 ^ 6 +
             hexVal (strAt s 2) * 16 ^ 5 + hexVal (strAt s 3) * 16 ^ 4 +
             hexVal (strAt s 4) * 16 ^ 3 + hexVal (strAt s 5) * 16 ^ 2 +
             hexVal (strAt s 6) * 16 + hexVal (strAt s 7)
    Data2 := hexVal (strAt s 9) * 16 ^ 3 + hexVal (strAt s 10) * 16 ^ 2 +
             hexVal (strAt s 11) * 16 + hexVal (strAt s 12)
    Data3 := hexVal (strAt s 14) * 16 ^ 3 + hexVal (strAt s 15) * 16 ^ 2 +
             hexVal (strAt s 16) * 16 + hexVal (strAt s 17)
    Data4 := [hexVal (strAt s 19) * 16 + hexVal (strAt s 20),
              hexVal (strAt s 21) * 16 + hexVal (strAt s 22),
              hexVal (strAt s 24) * 16 + hexVal (strAt s 25),
              hexVal (strAt s 26) * 16 + hexVal (strAt s 27),
              hexVal (strAt s 28) * 16 + hexVal (strAt s 29),
              hexVal (strAt s 30) * 16 + hexVal (strAt s 31),
              hexVal (strAt s 32) * 16 + hexVal (strAt s 33),
              hexVal (strAt s 34) * 16 + hexVal (strAt s 35)] }

/-- The bytes of the canonical text `"00000000-0000-0000-C000-000000000046"`
    (the IUnknown interface id, `PI_IUNKNOWN_IID`). -/
def iidChars : List Int :=
  [48, 48, 48, 48, 48, 48, 48, 48, 45, 48, 48, 48, 48, 45, 48, 48, 48, 48,
   45, 67, 48, 48, 48, 45, 48, 48, 48, 48, 48, 48, 48, 48, 48, 48, 52, 54]

/-- A canonical text with the byte `0xFF` (value `-1` as a signed `char`) in
    the first hex-digit position; all other bytes are those of `iidChars`. -/
def haxByteFirst : List Int :=
  -1 :: iidChars.drop 1

/-- A canonical text with the byte `0x80` (value `-128` as a signed `char`)
    at hex-digit position 5; all other bytes are those of `iidChars`. -/
def haxByteMid : List Int :=
  iidChars.take 5 ++ -128 :: iidChars.drop 6

-- --------------------------------------------------------------------------
-- SafeResult and the capability registry lookup (UnknownImpl::QueryInterface)
-- --------------------------------------------------------------------------

/-- Return codes for COM safe calls (`enum class SafeResult` in `pi.h`). -/
inductive SafeResult where
  | S_OK : SafeResult
  | E_NOTIMPL : SafeResult
  | E_NOINTERFACE : SafeResult
  | E_POINTER : SafeResult
  | E_FAIL : SafeResult
deriving DecidableEq, Repr

/-- The fixed 32-bit numeric value of each result code. -/
def SafeResult.code : SafeResult → Nat
  | .S_OK => 0x00000000
  | .E_NOTIMPL => 0x80004001
  | .E_NOINTERFACE => 0x80004002
  | .E_POINTER => 0x80004003
  | .E_FAIL => 0x80004005

/-- The GUID of `IUnknown`, the value `string_to_guid(PI_IUNKNOWN_IID)`
    produces (established by `string_to_guid_iid` below). -/
def iunknownGuid : GUID := ⟨0, 0, 0, [192, 0, 0, 0, 0, 0, 0, 70]⟩

/-- The capability registry of `UnknownImpl<Interfaces...>`: the identifier
    of the implicit base interface `IUnknown` first, then the identifiers of
    the declared interface list in declaration order. -/
def registry (decl : List GUID) : List GUID := iunknownGuid :: decl

/-- The recursive scan `UnknownImpl::QueryInterfaceImpl`: first entry of the
    registry whose identifier equals the query wins; the returned index is
    the matched position (the interface the object pointer is narrowed to). -/
def QueryInterfaceImpl (g : GUID) : List GUID → Option Nat
  | [] => none
  | g1 :: rest => if g = g1 then some 0 else (QueryInterfaceImpl g rest).map (· + 1)

-- --------------------------------------------------------------------------
-- Hybrid reference counting (UnknownImpl)
-- --------------------------------------------------------------------------

/-- The reference-counting state of an `UnknownImpl` object, plus a
    `destroyed` flag modelling that `delete this` has run. -/
structure ObjState where
  refCountCom : Int
  refCountSharedPtr : Int
  refStarted : Bool
  destroyed : Bool
deriving DecidableEq, Repr

/-- Freshly constructed object: both counters zero, not started. -/
def init : ObjState := ⟨0, 0, false, false⟩

/-- `UnknownImpl::TryDelete`: if both counters read zero, delete the object. -/
def TryDelete (s : ObjState) : ObjState :=
  if s.refCountCom = 0 ∧ s.refCountSharedPtr = 0 then { s with destroyed := true } else s

/-- `UnknownImpl::AddRef`: mark started, increment the external count and
    return the new value. -/
def AddRef (s : ObjState) : ObjState × Int :=
  ({ s with refStarted := true, refCountCom := s.refCountCom + 1 }, s.refCountCom + 1)

/-- `UnknownImpl::Release`: decrement the external count; when it reaches
    zero, run `TryDelete` and return the hard-coded `0`; otherwise return the
    remaining count. -/
def Release (s : ObjState) : ObjState × Int :=
  let s1 : ObjState := { s with refCountCom := s.refCountCom - 1 }
  if s1.refCountCom = 0 then (TryDelete s1, 0) else (s1, s1.refCountCom)

/-- `UnknownImpl::shared_ptr`: mark started and increment the shared count
    (the handed-out handle is what later performs `sharedDrop`). -/
def sharedAcquire (s : ObjState) : ObjState :=
  { s with refStarted := true, refCountSharedPtr := s.refCountSharedPtr + 1 }

/-- The deleter installed in the handed-out `std::shared_ptr`: decrement the
    shared count; when it reaches zero, run `TryDelete`. -/
def sharedDrop (s : ObjState) : ObjState :=
  let s1 : ObjState := { s with refCountSharedPtr := s.refCountSharedPtr - 1 }
  if s1.refCountSharedPtr = 0 then TryDelete s1 else s1

/-- `UnknownImpl::assertAddReference`: the assertion both acquire paths make
    under the lock. -/
def assertAddReference (s : ObjState) : Bool :=
  if s.refStarted then decide (0 < s.refCountCom + s.refCountSharedPtr)
  else decide (s.refCountCom + s.refCountSharedPtr = 0)

/-- The four lock-protected reference operations of a hybrid object. -/
inductive Op where
  | addRef : Op
  | release : Op
  | acquireShared : Op
  | releaseShared : Op
deriving DecidableEq, Repr

/-- Precondition of each operation: the object must not have been destroyed
    (calling into a deleted object is a contract violation) and the
    operation's `assert`s must hold. -/
def pre (s : ObjState) : Op → Bool
  | .addRef => !s.destroyed && assertAddReference s
  | .acquireShared => !s.destroyed && assertAddReference s
  | .release => !s.destroyed && (s.refStarted && decide (0 < s.refCountCom))
  | .releaseShared => !s.destroyed && (s.refStarted && decide (0 < s.refCountSharedPtr))

/-- Effect of one operation (first component) together with the returned
    integer, `0` for the two shared-handle operations which return none. -/
def step (s : ObjState) : Op → ObjState × Int
  | .addRef => AddRef s
  | .release => Release s
  | .acquireShared => (sharedAcquire s, 0)
  | .releaseShared => (sharedDrop s, 0)

/-- Execute a sequence of operations; `none` as soon as a precondition is
    violated.  The object's mutex totally orders the critical sections of
    concurrent threads, so every interleaving is such a sequence. -/
def run (s : ObjState) : List Op → Option ObjState
  | [] => some s
  | op :: t => if pre s op then run (step s op).1 t else none

/-- A balanced interleaving: as many external releases as external acquires,
    and as many shared-handle drops as shared acquires. -/
def balanced (t : List Op) : Prop :=
  t.count Op.release = t.count Op.addRef ∧
  t.count Op.releaseShared = t.count Op.acquireShared

instance (t : List Op) : Decidable (balanced t) := by
  unfold balanced; infer_instance

/-- Number of steps of a run at which the object gets destroyed. -/
def destroyCount (s : ObjState) : List Op → Nat
  | [] => 0
  | op :: t =>
    (if (step s op).1.destroyed && !s.destroyed then 1 else 0) +
      destroyCount (step s op).1 t

/-- `UnknownImpl::QueryInterface`: null-pointer checks, then the registry
    scan; on a match the output slot receives the narrowed pointer (modelled
    by the matched registry index) and `AddRef` runs.  `pguid = none` models
    a null identifier pointer, `slotPresent = false` a null output slot;
    `slot` is the slot's current content. -/
def QueryInterface (decl : List GUID) (s : ObjState) (pguid : Option GUID)
    (slotPresent : Bool) (slot : Option Nat) : SafeResult × ObjState × Option Nat :=
  match pguid, slotPresent with
  | none, _ => (SafeResult.E_POINTER, s, slot)
  | some _, false => (SafeResult.E_POINTER, s, slot)
  | some g, true =>
    match QueryInterfaceImpl g (registry decl) with
    | some i => (SafeResult.S_OK, (AddRef s).1, some i)
    | none => (SafeResult.E_NOINTERFACE, s, slot)

/-- The lifetime invariant of a hybrid object (spec, section 3): counters
    are nonnegative; before the first acquire both counters are zero and the
    object is alive; once started and still alive, the joint reference count
    is positive. -/
def Inv (s : ObjState) : Prop :=
  0 ≤ s.refCountCom ∧ 0 ≤ s.refCountSharedPtr ∧
    (s.refStarted = false →
      s.refCountCom = 0 ∧ s.refCountSharedPtr = 0 ∧ s.destroyed = false) ∧
    (s.refStarted = true → s.destroyed = false →
      0 < s.refCountCom + s.refCountSharedPtr)

/-- A sample interface identifier distinct from the IUnknown identifier,
    used to instantiate registries in witnesses. -/
def guidA : GUID := ⟨1, 2, 3, [4, 5, 6, 7, 8, 9, 10, 11]⟩

/-- A second sample identifier, absent from the witness registries. -/
def guidB : GUID := ⟨17, 2, 3, [4, 5, 6, 7, 8, 9, 10, 12]⟩

-- --------------------------------------------------------------------------
-- Sanity checks of the embedding on concrete inputs
-- --------------------------------------------------------------------------

example : string_to_guid iidChars = PRes.ok ⟨0, 0, 0, [192, 0, 0, 0, 0, 0, 0, 70]⟩ := by decide

example : validCanonical iidChars := by decide

example : specDecode iidChars = ⟨0, 0, 0, [192, 0, 0, 0, 0, 0, 0, 70]⟩ := by decide

example : run init [Op.addRef, Op.acquireShared, Op.release, Op.releaseShared] =
    some ⟨0, 0, true, true⟩ := by decide

example : run init [Op.addRef, Op.release, Op.addRef] = none := by decide

example : QueryInterface [guidA] init (some guidA) true none =
    (SafeResult.S_OK, ⟨1, 0, true, false⟩, some 1) := by decide

-- --------------------------------------------------------------------------
-- Bit-arithmetic bridge: disjoint shift-or chains are positional sums
-- --------------------------------------------------------------------------

theorem lor_shiftLeft_eq_add (a b k : Nat) (hb : b < 2 ^ k) :
    a <<< k ||| b = a * 2 ^ k + b := by
  have hmod : (a <<< k ||| b) % 2 ^ k = b := by
    have h1 : (a <<< k ||| b) % 2 ^ k = (a <<< k) % 2 ^ k ||| b % 2 ^ k := by
      rw [← Nat.and_pow_two_sub_one_eq_mod, ← Nat.and_pow_two_sub_one_eq_mod,
        ← Nat.and_pow_two_sub_one_eq_mod, Nat.and_distrib_right]
    rw [h1, Nat.shiftLeft_eq, Nat.mul_mod_left, Nat.mod_eq_of_lt hb, Nat.zero_or]
  have hdiv : (a <<< k ||| b) / 2 ^ k = a := by
    have h2 : (a <<< k ||| b) >>> k = (a <<< k) >>> k ||| b >>> k := by
      apply Nat.eq_of_testBit_eq
      intro i
      simp [Nat.testBit_shiftRight, Nat.testBit_or]
    have h3 : b >>> k = 0 := by
      rw [Nat.shiftRight_eq_div_pow]
      exact Nat.div_eq_of_lt hb
    have h4 := h2
    rw [Nat.shiftLeft_shiftRight, h3, Nat.or_zero] at h4
    rw [← Nat.shiftRight_eq_div_pow, h4]
  calc a <<< k ||| b
      = 2 ^ k * ((a <<< k ||| b) / 2 ^ k) + (a <<< k ||| b) % 2 ^ k :=
        (Nat.div_add_mod _ _).symm
    _ = 2 ^ k * a + b := by rw [hdiv, hmod]
    _ = a * 2 ^ k + b := by ring

theorem lor_sixteen_pow (x y e : Nat) (hy : y < 16) :
    x * 16 ^ (e + 1) ||| y * 16 ^ e = (x * 16 + y) * 16 ^ e := by
  have h16 : (16 : Nat) = 2 ^ 4 := by norm_num
  have hpow : ∀ m : Nat, (16 : Nat) ^ m = 2 ^ (4 * m) := by
    intro m
    rw [h16, ← pow_mul]
  have hy2 : y * 16 ^ e < 2 ^ (4 * (e + 1)) := by
    have : y * 16 ^ e < 16 * 16 ^ e :=
      (Nat.mul_lt_mul_right (Nat.pos_pow_of_pos e (by norm_num))).mpr hy
    calc y * 16 ^ e < 16 * 16 ^ e := this
      _ = 16 ^ (e + 1) := by ring
      _ = 2 ^ (4 * (e + 1)) := hpow (e + 1)
  have hL : x * 16 ^ (e + 1) = x <<< (4 * (e + 1)) := by
    rw [Nat.shiftLeft_eq, hpow]
  rw [hL, lor_shiftLeft_eq_add x (y * 16 ^ e) (4 * (e + 1)) hy2, ← hpow]
  ring

theorem lor_sixteen (x y : Nat) (hy : y < 16) : x * 16 ||| y = x * 16 + y := by
  have h := lor_sixteen_pow x y 0 hy
  simpa using h

theorem nib2_eq (a b : Nat) (hb : b < 16) : a <<< 4 ||| b = a * 16 + b := by
  have h : a <<< 4 = a * 16 := by norm_num [Nat.shiftLeft_eq]
  rw [h, lor_sixteen a b hb]

theorem nib4_eq (a b c d : Nat) (hb : b < 16) (hc : c < 16) (hd : d < 16) :
    a <<< 12 ||| b <<< 8 ||| c <<< 4 ||| d =
      a * 16 ^ 3 + b * 16 ^ 2 + c * 16 + d := by
  have ea : a <<< 12 = a * 16 ^ 3 := by norm_num [Nat.shiftLeft_eq]
  have eb : b <<< 8 = b * 16 ^ 2 := by norm_num [Nat.shiftLeft_eq]
  have ec : c <<< 4 = c * 16 ^ 1 := by norm_num [Nat.shiftLeft_eq]
  have ed : d = d * 16 ^ 0 := by ring
  rw [ea, eb, ec]
  rw [show a * 16 ^ 3 = a * 16 ^ (2 + 1) by norm_num,
    lor_sixteen_pow a b 2 hb,
    show (2 : Nat) = 1 + 1 from rfl,
    lor_sixteen_pow (a * 16 + b) c 1 hc]
  conv_lhs => rw [ed]
  rw [show (1 : Nat) = 0 + 1 from rfl, lor_sixteen_pow ((a * 16 + b) * 16 + c) d 0 hd]
  ring

theorem nib8_eq (a b c d e f g h : Nat) (hb : b < 16) (hc : c < 16) (hd : d < 16)
    (he : e < 16) (hf : f < 16) (hg : g < 16) (hh : h < 16) :
    a <<< 28 ||| b <<< 24 ||| c <<< 20 ||| d <<< 16 ||| e <<< 12 ||| f <<< 8 |||
      g <<< 4 ||| h =
      a * 16 ^ 7 + b * 16 ^ 6 + c * 16 ^ 5 + d * 16 ^ 4 + e * 16 ^ 3 +
        f * 16 ^ 2 + g * 16 + h := by
  have ea : a <<< 28 = a * 16 ^ 7 := by norm_num [Nat.shiftLeft_eq]
  have eb : b <<< 24 = b * 16 ^ 6 := by norm_num [Nat.shiftLeft_eq]
  have ec : c <<< 20 = c * 16 ^ 5 := by norm_num [Nat.shiftLeft_eq]
  have ed : d <<< 16 = d * 16 ^ 4 := by norm_num [Nat.shiftLeft_eq]
  have ee : e <<< 12 = e * 16 ^ 3 := by norm_num [Nat.shiftLeft_eq]
  have ef : f <<< 8 = f * 16 ^ 2 := by norm_num [Nat.shiftLeft_eq]
  have eg : g <<< 4 = g * 16 ^ 1 := by norm_num [Nat.shiftLeft_eq]
  have eh : h = h * 16 ^ 0 := by ring
  rw [ea, eb, ec, ed, ee, ef, eg]
  rw [show a * 16 ^ 7 = a * 16 ^ (6 + 1) by norm_num, lor_sixteen_pow a b 6 hb]
  rw [show (6 : Nat) = 5 + 1 from rfl, lor_sixteen_pow (a * 16 + b) c 5 hc]
  rw [show (5 : Nat) = 4 + 1 from rfl, lor_sixteen_pow ((a * 16 + b) * 16 + c) d 4 hd]
  rw [show (4 : Nat) = 3 + 1 from rfl,
    lor_sixteen_pow (((a * 16 + b) * 16 + c) * 16 + d) e 3 he]
  rw [show (3 : Nat) = 2 + 1 from rfl,
    lor_sixteen_pow ((((a * 16 + b) * 16 + c) * 16 + d) * 16 + e) f 2 hf]
  rw [show (2 : Nat) = 1 + 1 from rfl,
    lor_sixteen_pow (((((a * 16 + b) * 16 + c) * 16 + d) * 16 + e) * 16 + f) g 1 hg]
  conv_lhs => rw [eh]
  rw [show (1 : Nat) = 0 + 1 from rfl,
    lor_sixteen_pow ((((((a * 16 + b) * 16 + c) * 16 + d) * 16 + e) * 16 + f) * 16 + g) h 0 hh]
  ring

-- --------------------------------------------------------------------------
-- The scan loop on valid canonical text
-- --------------------------------------------------------------------------

theorem hexTable (c : Int) (hc : isHexDigit c) :
    hex2binGet c = some (hexVal c) ∧ hexVal c ≤ 15 ∧ ¬102 < c := by
  have h1 : 48 ≤ c := by rcases hc with ⟨h, _⟩ | ⟨h, _⟩ | ⟨h, _⟩ <;> omega
  have h2 : c ≤ 102 := by rcases hc with ⟨_, h⟩ | ⟨_, h⟩ | ⟨_, h⟩ <;> omega
  interval_cases c <;> revert hc <;> decide

theorem hexVal_lt_sixteen (c : Int) : hexVal c < 16 := by
  unfold hexVal
  split
  · omega
  split
  · omega
  split
  · omega
  · omega

theorem checkAt_dash (s : List Int) (i : Nat) (hd : dashPos i)
    (h45 : strAt s i = 45) : checkAt s i = some true := by
  unfold checkAt
  rw [if_pos (show i = 8 ∨ i = 13 ∨ i = 18 ∨ i = 23 from hd), h45]
  rfl

theorem checkAt_end (s : List Int) (h0 : strAt s 36 = 0) :
    checkAt s 36 = some true := by
  unfold checkAt
  rw [if_neg (by decide : ¬((36 : Nat) = 8 ∨ 36 = 13 ∨ 36 = 18 ∨ 36 = 23)),
    if_pos rfl, h0]
  rfl

theorem checkAt_hex (s : List Int) (i : Nat) (h36 : ¬i = 36) (hnd : ¬dashPos i)
    (hh : isHexDigit (strAt s i)) : checkAt s i = some true := by
  obtain ⟨hg, hle, hgt⟩ := hexTable (strAt s i) hh
  unfold checkAt
  rw [if_neg (show ¬(i = 8 ∨ i = 13 ∨ i = 18 ∨ i = 23) from hnd), if_neg h36,
    if_neg hgt, hg]
  simp [hle]

theorem checkSeq_all (s : List Int) (fuel : Nat) : ∀ i : Nat,
    (∀ j, j < fuel → checkAt s (i + j) = some true) →
    checkSeq s i fuel = some true := by
  induction fuel with
  | zero => intro i _; rfl
  | succ n ih =>
    intro i h
    have h0 : checkAt s i = some true := by simpa using h 0 (by omega)
    unfold checkSeq
    rw [h0]
    apply ih
    intro j hj
    have hs := h (j + 1) (by omega)
    rw [show i + (j + 1) = i + 1 + j by omega] at hs
    exact hs

theorem valid_checkSeq (s : List Int) (h : validCanonical s) :
    checkSeq s 0 37 = some true := by
  apply checkSeq_all
  intro j hj
  rw [Nat.zero_add]
  by_cases hd : dashPos j
  · exact checkAt_dash s j hd
      ((h.2 j (by rcases hd with h8 | h8 | h8 | h8 <;> omega)).1 hd)
  · by_cases h36 : j = 36
    · subst h36
      apply checkAt_end
      unfold strAt
      apply List.getD_eq_default
      have hlen : s.length = 36 := h.1
      omega
    · exact checkAt_hex s j h36 hd ((h.2 j (by omega)).2 hd)

-- --------------------------------------------------------------------------
-- Claim C5: valid canonical text parses to the big-endian decode
-- --------------------------------------------------------------------------

/-- C5: for every syntactically valid 36-character canonical text,
    `string_to_guid` succeeds and decodes the 32 hex digits big-endian into
    the four identifier fields (8 digits into the 32-bit field, 4 and 4 into
    the 16-bit fields, the last 12 as 6 byte pairs), exactly as the
    spec-side decoder `specDecode` states. -/
theorem string_to_guid_valid_decodes (s : List Int) (h : validCanonical s) :
    string_to_guid s = PRes.ok (specDecode s) := by
  have hc := valid_checkSeq s h
  have hx : ∀ i, i < 36 → ¬dashPos i →
      hex2binD (strAt s i) = hexVal (strAt s i) ∧ hexVal (strAt s i) < 16 := by
    intro i hi hnd
    have hh := (h.2 i hi).2 hnd
    refine ⟨?_, hexVal_lt_sixteen _⟩
    unfold hex2binD
    rw [(hexTable (strAt s i) hh).1]
    rfl
  unfold string_to_guid
  simp only [hc]
  unfold specDecode
  simp only [PRes.ok.injEq, GUID.mk.injEq, List.cons.injEq, and_true]
  refine ⟨?_, ?_, ?_, ?_, ?_, ?_, ?_, ?_, ?_, ?_, ?_⟩
  · rw [(hx 0 (by omega) (by decide)).1, (hx 1 (by omega) (by decide)).1,
      (hx 2 (by omega) (by decide)).1, (hx 3 (by omega) (by decide)).1,
      (hx 4 (by omega) (by decide)).1, (hx 5 (by omega) (by decide)).1,
      (hx 6 (by omega) (by decide)).1, (hx 7 (by omega) (by decide)).1]
    exact nib8_eq _ _ _ _ _ _ _ _ (hx 1 (by omega) (by decide)).2
      (hx 2 (by omega) (by decide)).2 (hx 3 (by omega) (by decide)).2
      (hx 4 (by omega) (by decide)).2 (hx 5 (by omega) (by decide)).2
      (hx 6 (by omega) (by decide)).2 (hx 7 (by omega) (by decide)).2
  · rw [(hx 9 (by omega) (by decide)).1, (hx 10 (by omega) (by decide)).1,
      (hx 11 (by omega) (by decide)).1, (hx 12 (by omega) (by decide)).1]
    exact nib4_eq _ _ _ _ (hx 10 (by omega) (by decide)).2
      (hx 11 (by omega) (by decide)).2 (hx 12 (by omega) (by decide)).2
  · rw [(hx 14 (by omega) (by decide)).1, (hx 15 (by omega) (by decide)).1,
      (hx 16 (by omega) (by decide)).1, (hx 17 (by omega) (by decide)).1]
    exact nib4_eq _ _ _ _ (hx 15 (by omega) (by decide)).2
      (hx 16 (by omega) (by decide)).2 (hx 17 (by omega) (by decide)).2
  · rw [(hx 19 (by omega) (by decide)).1, (hx 20 (by omega) (by decide)).1]
    exact nib2_eq _ _ (hx 20 (by omega) (by decide)).2
  · rw [(hx 21 (by omega) (by decide)).1, (hx 22 (by omega) (by decide)).1]
    exact nib2_eq _ _ (hx 22 (by omega) (by decide)).2
  · rw [(hx 24 (by omega) (by decide)).1, (hx 25 (by omega) (by decide)).1]
    exact nib2_eq _ _ (hx 25 (by omega) (by decide)).2
  · rw [(hx 26 (by omega) (by decide)).1, (hx 27 (by omega) (by decide)).1]
    exact nib2_eq _ _ (hx 27 (by omega) (by decide)).2
  · rw [(hx 28 (by omega) (by decide)).1, (hx 29 (by omega) (by decide)).1]
    exact nib2_eq _ _ (hx 29 (by omega) (by decide)).2
  · rw [(hx 30 (by omega) (by decide)).1, (hx 31 (by omega) (by decide)).1]
    exact nib2_eq _ _ (hx 31 (by omega) (by decide)).2
  · rw [(hx 32 (by omega) (by decide)).1, (hx 33 (by omega) (by decide)).1]
    exact nib2_eq _ _ (hx 33 (by omega) (by decide)).2
  · rw [(hx 34 (by omega) (by decide)).1, (hx 35 (by omega) (by decide)).1]
    exact nib2_eq _ _ (hx 35 (by omega) (by decide)).2

/-- Witness for C5: the text `"00000000-0000-0000-C000-000000000046"` is
    valid and parses to Data1 = 0, Data2 = 0, Data3 = 0,
    Data4 = (0xC0, 0, 0, 0, 0, 0, 0, 0x46). -/
theorem string_to_guid_valid_decodes_witness :
    validCanonical iidChars ∧
      string_to_guid iidChars = PRes.ok ⟨0, 0, 0, [192, 0, 0, 0, 0, 0, 0, 70]⟩ :=
  ⟨by decide, by rw [string_to_guid_valid_decodes iidChars (by decide)]; decide⟩

-- --------------------------------------------------------------------------
-- Claims C6 and C10: high (negative) bytes escape the table guard
-- --------------------------------------------------------------------------

/-- C10 (code bug): on the input whose first byte is `0xFF` (`-1` as a
    signed `char`) the guard `s[i] > 'f'` does not reject, yet the
    `hex2bin` access at that character is out of the table's bounds
    (a negative index), so the parse hits undefined behavior instead of
    rejecting the character first. -/
theorem string_to_guid_oob_access :
    ¬102 < strAt haxByteFirst 0 ∧
      hex2binGet (strAt haxByteFirst 0) = none ∧
      string_to_guid haxByteFirst = PRes.ub := by decide

/-- C6 (code bug): the input with the byte `0x80` (`-128` as a signed
    `char`) at hex-digit position 5 is not a valid canonical text, yet
    `string_to_guid` does not fail with a parse error: it performs an
    out-of-bounds table read. -/
theorem string_to_guid_high_byte_not_err :
    ¬validCanonical haxByteMid ∧
      string_to_guid haxByteMid = PRes.ub ∧
      string_to_guid haxByteMid ≠ PRes.err := by decide

-- --------------------------------------------------------------------------
-- State machine lemmas
-- --------------------------------------------------------------------------

theorem pre_not_destroyed (s : ObjState) (op : Op) (h : pre s op = true) :
    s.destroyed = false := by
  cases op <;>
    simp only [pre, Bool.and_eq_true, Bool.not_eq_true'] at h <;>
    exact h.1

theorem pre_false_destroyed (s : ObjState) (op : Op) (hd : s.destroyed = true) :
    pre s op = false := by
  cases op <;> simp [pre, hd]

theorem step_started (s : ObjState) (op : Op) (h : s.refStarted = true) :
    (step s op).1.refStarted = true := by
  cases op <;>
    simp only [step, AddRef, Release, sharedAcquire, sharedDrop, TryDelete] <;>
    split_ifs <;> simp [h]

theorem run_started (t : List Op) : ∀ s0 s : ObjState, run s0 t = some s →
    s0.refStarted = true → s.refStarted = true := by
  induction t with
  | nil =>
    intro s0 s h hs
    simp [run] at h
    rwa [← h]
  | cons op t ih =>
    intro s0 s h hs
    simp only [run] at h
    by_cases hp : pre s0 op = true
    · rw [if_pos hp] at h
      exact ih _ _ h (step_started s0 op hs)
    · rw [if_neg hp] at h
      cases h

theorem run_append (t1 : List Op) : ∀ (t2 : List Op) (s0 : ObjState),
    run s0 (t1 ++ t2) =
      match run s0 t1 with
      | some s1 => run s1 t2
      | none => none := by
  induction t1 with
  | nil => intro t2 s0; rfl
  | cons op t ih =>
    intro t2 s0
    simp only [List.cons_append, run]
    by_cases hp : pre s0 op = true
    · rw [if_pos hp, if_pos hp]
      simp only [List.append_eq]
      rw [ih]
    · rw [if_neg hp, if_neg hp]

theorem step_invariant (s : ObjState) (op : Op) (hp : pre s op = true)
    (hs : Inv s) : Inv (step s op).1 := by
  obtain ⟨h1, h2, h3, h4⟩ := hs
  have hd := pre_not_destroyed s op hp
  cases op
  case addRef =>
    simp only [step, AddRef, Inv]
    refine ⟨by omega, h2, by simp, ?_⟩
    intro _ _
    omega
  case acquireShared =>
    simp only [step, sharedAcquire, Inv]
    refine ⟨h1, by omega, by simp, ?_⟩
    intro _ _
    omega
  case release =>
    simp only [pre, Bool.and_eq_true, Bool.not_eq_true', decide_eq_true_eq] at hp
    obtain ⟨-, hst, hcom⟩ := hp
    simp only [step, Release, TryDelete, Inv]
    split_ifs with hA hB <;> refine ⟨?_, ?_, ?_, ?_⟩ <;> simp_all <;> omega
  case releaseShared =>
    simp only [pre, Bool.and_eq_true, Bool.not_eq_true', decide_eq_true_eq] at hp
    obtain ⟨-, hst, hsh⟩ := hp
    simp only [step, sharedDrop, TryDelete, Inv]
    split_ifs with hA hB <;> refine ⟨?_, ?_, ?_, ?_⟩ <;> simp_all <;> omega

theorem run_invariant (t : List Op) : ∀ s0 s : ObjState, run s0 t = some s →
    Inv s0 → Inv s := by
  induction t with
  | nil =>
    intro s0 s h hs
    simp [run] at h
    rwa [← h]
  | cons op t ih =>
    intro s0 s h hs
    simp only [run] at h
    by_cases hp : pre s0 op = true
    · rw [if_pos hp] at h
      exact ih _ _ h (step_invariant s0 op hp hs)
    · rw [if_neg hp] at h
      cases h

theorem Inv_init : Inv init := by
  unfold Inv init
  norm_num

theorem step_counts (s : ObjState) (op : Op) :
    (step s op).1.refCountCom =
      s.refCountCom + (if op = Op.addRef then 1 else 0) -
        (if op = Op.release then 1 else 0) ∧
    (step s op).1.refCountSharedPtr =
      s.refCountSharedPtr + (if op = Op.acquireShared then 1 else 0) -
        (if op = Op.releaseShared then 1 else 0) := by
  cases op <;>
    simp only [step, AddRef, Release, sharedAcquire, sharedDrop, TryDelete] <;>
    split_ifs <;> simp_all

theorem run_counters (t : List Op) : ∀ s0 s : ObjState, run s0 t = some s →
    s.refCountCom + (t.count Op.release : Int) =
      s0.refCountCom + (t.count Op.addRef : Int) ∧
    s.refCountSharedPtr + (t.count Op.releaseShared : Int) =
      s0.refCountSharedPtr + (t.count Op.acquireShared : Int) := by
  induction t with
  | nil =>
    intro s0 s h
    simp [run] at h
    subst h
    simp
  | cons op t ih =>
    intro s0 s h
    simp only [run] at h
    by_cases hp : pre s0 op = true
    · rw [if_pos hp] at h
      obtain ⟨ih1, ih2⟩ := ih _ _ h
      obtain ⟨e1, e2⟩ := step_counts s0 op
      cases op <;> simp only [List.count_cons] at ih1 ih2 e1 e2 ⊢ <;>
        simp at e1 e2 ⊢ <;> omega
    · rw [if_neg hp] at h
      cases h

theorem run_destroyed (t : List Op) (s1 s : ObjState) (hd : s1.destroyed = true)
    (h : run s1 t = some s) : s = s1 ∧ t = [] := by
  cases t with
  | nil =>
    simp [run] at h
    exact ⟨h.symm, rfl⟩
  | cons op t =>
    simp only [run] at h
    have hne : ¬pre s1 op = true := by simp [pre_false_destroyed s1 op hd]
    rw [if_neg hne] at h
    cases h

theorem run_destroyCount (t : List Op) : ∀ s0 s : ObjState, run s0 t = some s →
    s0.destroyed = false →
    destroyCount s0 t = if s.destroyed then 1 else 0 := by
  induction t with
  | nil =>
    intro s0 s h h0
    simp [run] at h
    subst h
    simp [destroyCount, h0]
  | cons op t ih =>
    intro s0 s h h0
    simp only [run] at h
    by_cases hp : pre s0 op = true
    · rw [if_pos hp] at h
      by_cases hd : (step s0 op).1.destroyed = true
      · obtain ⟨hs, ht⟩ := run_destroyed t _ s hd h
        subst ht
        simp [destroyCount, hd, h0, hs]
      · have hd2 : (step s0 op).1.destroyed = false := by
          cases hx : (step s0 op).1.destroyed
          · rfl
          · exact absurd hx hd
        simp [destroyCount, hd2, ih _ _ h hd2]
    · rw [if_neg hp] at h
      cases h

theorem step_destroy_iff (s : ObjState) (op : Op) (hp : pre s op = true)
    (hs : Inv s) :
    ((step s op).1.destroyed = true ↔
      ((step s op).1.refCountCom = 0 ∧ (step s op).1.refCountSharedPtr = 0)) := by
  obtain ⟨h1, h2, h3, h4⟩ := hs
  have hd := pre_not_destroyed s op hp
  cases op
  case addRef =>
    simp only [step, AddRef]
    simp [hd]
    omega
  case acquireShared =>
    simp only [step, sharedAcquire]
    simp [hd]
    omega
  case release =>
    simp only [pre, Bool.and_eq_true, Bool.not_eq_true', decide_eq_true_eq] at hp
    obtain ⟨-, hst, hcom⟩ := hp
    simp only [step, Release, TryDelete]
    split_ifs with hA hB <;> simp_all
  case releaseShared =>
    simp only [pre, Bool.and_eq_true, Bool.not_eq_true', decide_eq_true_eq] at hp
    obtain ⟨-, hst, hsh⟩ := hp
    simp only [step, sharedDrop, TryDelete]
    split_ifs with hA hB <;> simp_all

-- --------------------------------------------------------------------------
-- Claim C8: lifetime invariant of reachable states
-- --------------------------------------------------------------------------

/-- C8: every reachable state of a hybrid object has both counters zero
    while not yet started; once started and not yet destroyed the joint
    reference count is positive; and started persists through any further
    legal execution (after destruction no operation is legal at all). -/
theorem reachable_invariant (t0 t : List Op) (s s1 : ObjState)
    (h0 : run init t0 = some s) (h1 : run s t = some s1) :
    (s.refStarted = false → s.refCountCom = 0 ∧ s.refCountSharedPtr = 0) ∧
      (s.refStarted = true → s.destroyed = false →
        0 < s.refCountCom + s.refCountSharedPtr) ∧
      (s.refStarted = true → s1.refStarted = true) := by
  have hi := run_invariant t0 init s h0 Inv_init
  exact ⟨fun hf => ⟨(hi.2.2.1 hf).1, (hi.2.2.1 hf).2.1⟩,
    fun ha hb => hi.2.2.2 ha hb,
    fun ha => run_started t s s1 h1 ha⟩

/-- Witness for C8: the state after one `AddRef`, continued by one
    `Release`. -/
theorem reachable_invariant_witness :
    ((⟨1, 0, true, false⟩ : ObjState).refStarted = false →
        (⟨1, 0, true, false⟩ : ObjState).refCountCom = 0 ∧
          (⟨1, 0, true, false⟩ : ObjState).refCountSharedPtr = 0) ∧
      ((⟨1, 0, true, false⟩ : ObjState).refStarted = true →
        (⟨1, 0, true, false⟩ : ObjState).destroyed = false →
        0 < (⟨1, 0, true, false⟩ : ObjState).refCountCom +
          (⟨1, 0, true, false⟩ : ObjState).refCountSharedPtr) ∧
      ((⟨1, 0, true, false⟩ : ObjState).refStarted = true →
        (⟨0, 0, true, true⟩ : ObjState).refStarted = true) :=
  reachable_invariant [Op.addRef] [Op.release] ⟨1, 0, true, false⟩
    ⟨0, 0, true, true⟩ (by decide) (by decide)

-- --------------------------------------------------------------------------
-- Claim C1: balanced interleavings destroy the object exactly once
-- --------------------------------------------------------------------------

/-- C1: every legal balanced nonempty interleaving of the four reference
    operations ends with the object destroyed, the destruction happens at
    exactly one step of the run, and any step of the run destroys the object
    precisely when it leaves both counters simultaneously zero. -/
theorem balanced_destroyed_once (t t1 t2 : List Op) (op : Op) (s s1 : ObjState)
    (h : run init t = some s) (hb : balanced t) (hne : t ≠ [])
    (hdec : t = t1 ++ op :: t2) (h1 : run init t1 = some s1) :
    s.destroyed = true ∧ destroyCount init t = 1 ∧
      ((step s1 op).1.destroyed = true ↔
        ((step s1 op).1.refCountCom = 0 ∧
          (step s1 op).1.refCountSharedPtr = 0)) := by
  obtain ⟨hc1, hc2⟩ := run_counters t init s h
  obtain ⟨hbr, hbs⟩ := hb
  have e1 : (init.refCountCom : Int) = 0 := rfl
  have e2 : (init.refCountSharedPtr : Int) = 0 := rfl
  have hcom : s.refCountCom = 0 := by rw [hbr] at hc1; omega
  have hshared : s.refCountSharedPtr = 0 := by rw [hbs] at hc2; omega
  have hstart : s.refStarted = true := by
    cases t with
    | nil => exact absurd rfl hne
    | cons op0 t3 =>
      simp only [run] at h
      by_cases hp : pre init op0 = true
      · rw [if_pos hp] at h
        have hs1 : (step init op0).1.refStarted = true := by
          cases op0
          · rfl
          · exact absurd hp (by decide)
          · rfl
          · exact absurd hp (by decide)
        exact run_started t3 _ s h hs1
      · rw [if_neg hp] at h
        cases h
  have hinv := run_invariant t init s h Inv_init
  have hdes : s.destroyed = true := by
    cases hx : s.destroyed
    · exfalso
      have := hinv.2.2.2 hstart hx
      omega
    · rfl
  have hcount : destroyCount init t = 1 := by
    rw [run_destroyCount t init s h rfl, hdes]
    rfl
  have hsp : pre s1 op = true := by
    have h9 := h
    rw [hdec, run_append t1 (op :: t2) init, h1] at h9
    simp only [run] at h9
    by_cases hp : pre s1 op = true
    · exact hp
    · rw [if_neg hp] at h9
      cases h9
  exact ⟨hdes, hcount,
    step_destroy_iff s1 op hsp (run_invariant t1 init s1 h1 Inv_init)⟩

/-- Witness for C1: the balanced run AddRef then Release, decomposed at its
    Release step. -/
theorem balanced_destroyed_once_witness :
    (⟨0, 0, true, true⟩ : ObjState).destroyed = true ∧
      destroyCount init [Op.addRef, Op.release] = 1 ∧
      ((step ⟨1, 0, true, false⟩ Op.release).1.destroyed = true ↔
        ((step ⟨1, 0, true, false⟩ Op.release).1.refCountCom = 0 ∧
          (step ⟨1, 0, true, false⟩ Op.release).1.refCountSharedPtr = 0)) :=
  balanced_destroyed_once [Op.addRef, Op.release] [Op.addRef] [] Op.release
    ⟨0, 0, true, true⟩ ⟨1, 0, true, false⟩ (by decide) (by decide) (by decide)
    (by decide) (by decide)

-- --------------------------------------------------------------------------
-- Claim C2: what a Release return value of 0 means
-- --------------------------------------------------------------------------

/-- C2 counterexample: in the reachable state with one external and one
    shared reference, `Release` is legally called and returns 0, yet the
    call does not destroy the object, so a return of 0 does not mean the
    object was destroyed. -/
theorem release_zero_not_destroyed :
    run init [Op.addRef, Op.acquireShared] = some ⟨1, 1, true, false⟩ ∧
      pre ⟨1, 1, true, false⟩ Op.release = true ∧
      (Release ⟨1, 1, true, false⟩).2 = 0 ∧
      (Release ⟨1, 1, true, false⟩).1.destroyed = false := by decide

/-- C2 amended: in every state where `Release` is legally called (started,
    positive external count, not destroyed) it returns the decremented
    external count — hence 0 exactly when the count reached 0 — and the call
    destroys the object iff additionally the shared count is zero. -/
theorem release_returns_remaining (s : ObjState)
    (h : s.refStarted = true ∧ 0 < s.refCountCom ∧ s.destroyed = false) :
    (Release s).2 = s.refCountCom - 1 ∧
      ((Release s).2 = 0 ↔ s.refCountCom = 1) ∧
      ((Release s).1.destroyed = true ↔
        (s.refCountCom = 1 ∧ s.refCountSharedPtr = 0)) := by
  obtain ⟨hst, hcom, hd⟩ := h
  simp only [Release, TryDelete]
  split_ifs with hA hB <;> simp_all <;> omega

/-- Witness for C2 at the state with a single external reference and one
    shared handle outstanding. -/
theorem release_returns_remaining_witness :
    (Release ⟨1, 1, true, false⟩).2 =
        (⟨1, 1, true, false⟩ : ObjState).refCountCom - 1 ∧
      ((Release ⟨1, 1, true, false⟩).2 = 0 ↔
        (⟨1, 1, true, false⟩ : ObjState).refCountCom = 1) ∧
      ((Release ⟨1, 1, true, false⟩).1.destroyed = true ↔
        ((⟨1, 1, true, false⟩ : ObjState).refCountCom = 1 ∧
          (⟨1, 1, true, false⟩ : ObjState).refCountSharedPtr = 0)) :=
  release_returns_remaining ⟨1, 1, true, false⟩ (by decide)

-- --------------------------------------------------------------------------
-- Registry scan lemmas
-- --------------------------------------------------------------------------

theorem QueryInterfaceImpl_first (g : GUID) : ∀ (l : List GUID) (i : Nat),
    l[i]? = some g → (∀ j, j < i → l[j]? ≠ some g) →
    QueryInterfaceImpl g l = some i := by
  intro l
  induction l with
  | nil =>
    intro i hi _
    simp at hi
  | cons a rest ih =>
    intro i hi hfirst
    by_cases hg : g = a
    · have hi0 : i = 0 := by
        by_contra hne
        exact hfirst 0 (by omega) (by simp [hg])
      subst hi0
      simp [QueryInterfaceImpl, hg]
    · cases i with
      | zero =>
        simp at hi
        exact absurd hi.symm hg
      | succ i2 =>
        simp only [QueryInterfaceImpl, if_neg hg]
        rw [ih i2 (by simpa using hi) ?_]
        · rfl
        · intro j hj
          have hj2 := hfirst (j + 1) (by omega)
          simpa using hj2

theorem QueryInterfaceImpl_none (g : GUID) : ∀ l : List GUID, g ∉ l →
    QueryInterfaceImpl g l = none := by
  intro l
  induction l with
  | nil => intro h2; rfl
  | cons a rest ih =>
    intro hmem
    simp only [List.mem_cons, not_or] at hmem
    simp [QueryInterfaceImpl, hmem.1, ih hmem.2]

theorem QueryInterfaceImpl_mem (g : GUID) : ∀ l : List GUID, g ∈ l →
    ∃ i, QueryInterfaceImpl g l = some i ∧ l[i]? = some g := by
  intro l
  induction l with
  | nil =>
    intro h
    cases h
  | cons a rest ih =>
    intro hmem
    by_cases hg : g = a
    · exact ⟨0, by simp [QueryInterfaceImpl, hg], by simp [hg]⟩
    · have hmem2 : g ∈ rest := by
        rcases List.mem_cons.mp hmem with h | h
        · exact absurd h hg
        · exact h
      obtain ⟨i, hI, hidx⟩ := ih hmem2
      exact ⟨i + 1, by simp [QueryInterfaceImpl, hg, hI], by simpa using hidx⟩

-- --------------------------------------------------------------------------
-- Claim C3: successful lookup narrows, acquires once and returns OK
-- --------------------------------------------------------------------------

/-- C3: for every identifier present in the object's capability registry, a
    lookup with non-null arguments returns `S_OK`, increments the external
    count by exactly 1, leaves the shared count unchanged, and writes into
    the output slot a pointer to the object narrowed to a registry interface
    carrying that identifier. -/
theorem queryInterface_success (decl : List GUID) (s : ObjState) (g : GUID)
    (slot : Option Nat) (hmem : g ∈ registry decl) :
    (QueryInterface decl s (some g) true slot).1 = SafeResult.S_OK ∧
      (QueryInterface decl s (some g) true slot).2.1.refCountCom =
        s.refCountCom + 1 ∧
      (QueryInterface decl s (some g) true slot).2.1.refCountSharedPtr =
        s.refCountSharedPtr ∧
      ∃ i, (QueryInterface decl s (some g) true slot).2.2 = some i ∧
        (registry decl)[i]? = some g := by
  obtain ⟨i, hI, hidx⟩ := QueryInterfaceImpl_mem g (registry decl) hmem
  refine ⟨by simp [QueryInterface, hI], by simp [QueryInterface, hI, AddRef],
    by simp [QueryInterface, hI, AddRef],
    ⟨i, by simp [QueryInterface, hI], hidx⟩⟩

/-- Witness for C3: looking up `guidA` on a fresh object registering
    `guidA`. -/
theorem queryInterface_success_witness :
    guidA ∈ registry [guidA] ∧
      ((QueryInterface [guidA] init (some guidA) true none).1 =
          SafeResult.S_OK ∧
        (QueryInterface [guidA] init (some guidA) true none).2.1.refCountCom =
          init.refCountCom + 1 ∧
        (QueryInterface [guidA] init
            (some guidA) true none).2.1.refCountSharedPtr =
          init.refCountSharedPtr ∧
        ∃ i, (QueryInterface [guidA] init (some guidA) true none).2.2 =
            some i ∧
          (registry [guidA])[i]? = some guidA) :=
  ⟨by decide, queryInterface_success [guidA] init guidA none (by decide)⟩

-- --------------------------------------------------------------------------
-- Claim C4: declaration-order scan, IUnknown first, first match wins
-- --------------------------------------------------------------------------

/-- C4: the registry starts with the IUnknown identifier, the scan returns
    the first registry position carrying the queried identifier, and a query
    for an identifier absent from the registry returns `E_NOINTERFACE`
    leaving both the state and the output slot untouched. -/
theorem queryInterface_first_match (decl : List GUID) (s : ObjState)
    (g g2 : GUID) (slot : Option Nat) (i : Nat)
    (hi : (registry decl)[i]? = some g)
    (hfirst : ∀ j, j < i → (registry decl)[j]? ≠ some g)
    (hg2 : g2 ∉ registry decl) :
    (QueryInterface decl s (some g) true slot).1 = SafeResult.S_OK ∧
      (QueryInterface decl s (some g) true slot).2.2 = some i ∧
      (registry decl)[0]? = some iunknownGuid ∧
      QueryInterface decl s (some g2) true slot =
        (SafeResult.E_NOINTERFACE, s, slot) := by
  have hI := QueryInterfaceImpl_first g (registry decl) i hi hfirst
  have hN := QueryInterfaceImpl_none g2 (registry decl) hg2
  exact ⟨by simp [QueryInterface, hI], by simp [QueryInterface, hI],
    by simp [registry], by simp [QueryInterface, hN]⟩

/-- Witness for C4: registry of `guidA` behind IUnknown; `guidA` matches at
    position 1 and `guidB` is not found. -/
theorem queryInterface_first_match_witness :
    (QueryInterface [guidA] init (some guidA) true none).1 =
        SafeResult.S_OK ∧
      (QueryInterface [guidA] init (some guidA) true none).2.2 = some 1 ∧
      (registry [guidA])[0]? = some iunknownGuid ∧
      QueryInterface [guidA] init (some guidB) true none =
        (SafeResult.E_NOINTERFACE, init, none) :=
  queryInterface_first_match [guidA] init guidA guidB none 1 (by decide)
    (by decide) (by decide)

-- --------------------------------------------------------------------------
-- Claim C7: null arguments
-- --------------------------------------------------------------------------

/-- C7: a lookup with an absent identifier reference or an absent output
    slot returns `E_POINTER`, changes neither reference counter (the state
    is returned unchanged) and leaves the output slot untouched. -/
theorem queryInterface_null (decl : List GUID) (s : ObjState)
    (pguid : Option GUID) (slotPresent : Bool) (slot : Option Nat)
    (h : pguid = none ∨ slotPresent = false) :
    QueryInterface decl s pguid slotPresent slot =
      (SafeResult.E_POINTER, s, slot) := by
  rcases h with h | h
  · subst h
    rfl
  · subst h
    cases pguid <;> rfl

/-- Witness for C7: lookup with a null identifier pointer. -/
theorem queryInterface_null_witness :
    QueryInterface [guidA] init none true none =
      (SafeResult.E_POINTER, init, none) :=
  queryInterface_null [guidA] init none true none (Or.inl rfl)

-- --------------------------------------------------------------------------
-- Claim C9: duplicate identifiers are not rejected; first entry wins
-- --------------------------------------------------------------------------

/-- C9 counterexample: a registry whose declared list contains the same
    identifier twice is accepted, and a lookup for it succeeds silently,
    resolved to the first of the two entries (position 1), with no
    registration-time rejection anywhere in the implementation. -/
theorem duplicate_registry_accepted :
    (registry [guidA, guidA])[1]? = some guidA ∧
      (registry [guidA, guidA])[2]? = some guidA ∧
      QueryInterface [guidA, guidA] init (some guidA) true none =
        (SafeResult.S_OK, ⟨1, 0, true, false⟩, some 1) := by decide

/-- C9 amended: a registry containing the same identifier at two positions
    is not rejected; lookup silently resolves the query to the first
    matching entry in declaration order and returns `S_OK`. -/
theorem duplicate_registry_first_wins (decl : List GUID) (s : ObjState)
    (g : GUID) (slot : Option Nat) (i k : Nat) (_hik : i < k)
    (hi : (registry decl)[i]? = some g) (_hk : (registry decl)[k]? = some g)
    (hfirst : ∀ j, j < i → (registry decl)[j]? ≠ some g) :
    (QueryInterface decl s (some g) true slot).1 = SafeResult.S_OK ∧
      (QueryInterface decl s (some g) true slot).2.2 = some i := by
  have hI := QueryInterfaceImpl_first g (registry decl) i hi hfirst
  exact ⟨by simp [QueryInterface, hI], by simp [QueryInterface, hI]⟩

/-- Witness for the amended C9: the duplicated registry entries at
    positions 1 and 2; lookup resolves to position 1. -/
theorem duplicate_registry_first_wins_witness :
    (QueryInterface [guidA, guidA] init (some guidA) true none).1 =
        SafeResult.S_OK ∧
      (QueryInterface [guidA, guidA] init (some guidA) true none).2.2 =
        some 1 :=
  duplicate_registry_first_wins [guidA, guidA] init guidA none 1 2
    (by decide) (by decide) (by decide) (by decide)

-- --------------------------------------------------------------------------
-- Supporting result for C6: restricted to non-negative bytes, the parser
-- rejects every invalid input with a parse error (no table read escapes)
-- --------------------------------------------------------------------------

theorem strAt_nonneg (s : List Int) (hnn : ∀ c ∈ s, 0 ≤ c) (i : Nat) :
    0 ≤ strAt s i := by
  unfold strAt
  rw [List.getD_eq_getElem?_getD]
  cases hx : s[i]? with
  | none => simp
  | some c => simpa using hnn c (List.getElem?_mem hx)

theorem checkAt_ne_none (s : List Int) (hnn : ∀ c ∈ s, 0 ≤ c) (i : Nat) :
    checkAt s i ≠ none := by
  unfold checkAt
  split_ifs with h1 h2 h3
  · simp
  · simp
  · simp
  · have hc : 0 ≤ strAt s i := strAt_nonneg s hnn i
    have hg : hex2binGet (strAt s i) =
        some (hex2bin.getD (strAt s i).toNat 99) := by
      unfold hex2binGet
      rw [if_pos ⟨hc, by omega⟩]
    rw [hg]
    simp

theorem checkSeq_ne_none (s : List Int) (hnn : ∀ c ∈ s, 0 ≤ c) :
    ∀ (fuel i : Nat), checkSeq s i fuel ≠ none := by
  intro fuel
  induction fuel with
  | zero =>
    intro i
    simp [checkSeq]
  | succ n ih =>
    intro i
    unfold checkSeq
    cases hx : checkAt s i with
    | none => exact absurd hx (checkAt_ne_none s hnn i)
    | some b =>
      cases b
      · simp
      · exact ih (i + 1)

theorem checkSeq_true_all (s : List Int) :
    ∀ (fuel i : Nat), checkSeq s i fuel = some true →
    ∀ j, j < fuel → checkAt s (i + j) = some true := by
  intro fuel
  induction fuel with
  | zero =>
    intro i _ j hj
    omega
  | succ n ih =>
    intro i h j hj
    unfold checkSeq at h
    cases hx : checkAt s i with
    | none =>
      rw [hx] at h
      cases h
    | some b =>
      rw [hx] at h
      cases b
      · exact absurd h (by simp)
      · cases j with
        | zero => simpa using hx
        | succ j2 =>
          have hj3 := ih (i + 1) h j2 (by omega)
          rw [show i + (j2 + 1) = i + 1 + j2 by omega]
          exact hj3

theorem table_le_hex (c : Int) (h0 : 0 ≤ c) (h102 : c ≤ 102)
    (hle : hex2binD c ≤ 15) : isHexDigit c := by
  interval_cases c <;> revert hle <;> decide

theorem checkAt_true_dash (s : List Int) (i : Nat) (hd : dashPos i)
    (h : checkAt s i = some true) : strAt s i = 45 := by
  unfold checkAt at h
  rw [if_pos (show i = 8 ∨ i = 13 ∨ i = 18 ∨ i = 23 from hd)] at h
  simpa using h

theorem checkAt_true_end (s : List Int) (h : checkAt s 36 = some true) :
    strAt s 36 = 0 := by
  unfold checkAt at h
  rw [if_neg (by decide : ¬((36 : Nat) = 8 ∨ 36 = 13 ∨ 36 = 18 ∨ 36 = 23)),
    if_pos rfl] at h
  simpa using h

theorem checkAt_true_hex (s : List Int) (i : Nat) (h36 : ¬i = 36)
    (hnd : ¬dashPos i) (hnn0 : 0 ≤ strAt s i)
    (h : checkAt s i = some true) : isHexDigit (strAt s i) := by
  unfold checkAt at h
  rw [if_neg (show ¬(i = 8 ∨ i = 13 ∨ i = 18 ∨ i = 23) from hnd),
    if_neg h36] at h
  by_cases hgt : strAt s i > 102
  · rw [if_pos hgt] at h
    exact absurd h (by simp)
  · rw [if_neg hgt] at h
    cases hgs : hex2binGet (strAt s i) with
    | none =>
      unfold hex2binGet at hgs
      rw [if_pos ⟨hnn0, by omega⟩] at hgs
      cases hgs
    | some v =>
      rw [hgs] at h
      have hv : v ≤ 15 := by simpa using h
      have hd2 : hex2binD (strAt s i) = v := by
        unfold hex2binD
        rw [hgs]
        rfl
      exact table_le_hex _ hnn0 (by omega) (by rw [hd2]; exact hv)

/-- Supporting theorem for C6: on inputs all of whose bytes are strictly
    positive signed chars (a real C string of non-negative bytes), the
    parser fails with a parse error on every input that is not valid
    canonical text — the claimed rejection behavior, which only bytes above
    `0x7F` escape. -/
theorem string_to_guid_rejects_invalid (s : List Int)
    (hnn : ∀ c ∈ s, 0 ≤ c) (hnz : ∀ c ∈ s, c ≠ 0)
    (hnv : ¬validCanonical s) : string_to_guid s = PRes.err := by
  unfold string_to_guid
  cases hcs : checkSeq s 0 37 with
  | none => exact absurd hcs (checkSeq_ne_none s hnn 37 0)
  | some b =>
    cases b
    · rfl
    · exfalso
      apply hnv
      have hall : ∀ j, j < 37 → checkAt s j = some true := by
        intro j hj
        have hj2 := checkSeq_true_all s 37 0 hcs j hj
        simpa using hj2
      have hend : strAt s 36 = 0 := checkAt_true_end s (hall 36 (by omega))
      have hdash : ∀ i, dashPos i → strAt s i = 45 := by
        intro i hd
        have hi : i < 36 := by rcases hd with h | h | h | h <;> omega
        exact checkAt_true_dash s i hd (hall i (by omega))
      have hhex : ∀ i, i < 36 → ¬dashPos i → isHexDigit (strAt s i) := by
        intro i hi hnd
        exact checkAt_true_hex s i (by omega) hnd (strAt_nonneg s hnn i)
          (hall i (by omega))
      have hlen : s.length = 36 := by
        have hge : 36 ≤ s.length := by
          by_contra hlt
          push_neg at hlt
          have h0 : strAt s s.length = 0 := by
            unfold strAt
            exact List.getD_eq_default _ _ (le_refl _)
          by_cases hd : dashPos s.length
          · have h45 := hdash _ hd
            omega
          · have hhd := hhex s.length (by omega) hd
            rw [h0] at hhd
            exact (by decide : ¬isHexDigit 0) hhd
        have hle : s.length ≤ 36 := by
          by_contra hgt
          push_neg at hgt
          have hmem : strAt s 36 ∈ s := by
            unfold strAt
            rw [List.getD_eq_getElem?_getD,
              List.getElem?_eq_getElem (by omega : 36 < s.length)]
            exact List.getElem_mem _
          exact hnz _ hmem hend
        omega
      exact ⟨hlen, fun i hi => ⟨hdash i, hhex i hi⟩⟩

/-- The supporting theorem at a concrete invalid input: a text with a bad
    hyphen position is rejected with a parse error. -/
theorem string_to_guid_rejects_invalid_witness :
    string_to_guid (iidChars.take 35) = PRes.err :=
  string_to_guid_rejects_invalid (iidChars.take 35) (by decide) (by decide)
    (by decide)

end pi
